import Mathlib

/-!
Shallow embedding of the combat core of `super-animal-fighting-explorer`
(`src/creature.py` and `src/battle.py`).

Modelling conventions:
* Python ints are `Int`; Python `%` on a positive modulus is `Int.emod` (written `%`);
  Python `int(...)` applied to a non-integral value truncates toward zero (`Int.tdiv`
  on the exact fraction: `base * 1.35 + 6` is exactly `(27*base + 120) / 20`). The
  source evaluates that expression in IEEE-754 binary64; the exact fraction used
  here coincides with the binary64 evaluation for `|base| ≤ 10^12` (see
  `special_from_base`), and numeric claims about it are stated only on that range.
* `random.randint(a, b)` and `random.choice` are modelled by an explicit entropy
  oracle threaded into each mutating call: `rolls m` is the m-th raw draw consumed
  during that call, mapped into `[a, b]` by `a + draw % (b - a + 1)` (surjective onto
  the range when `a ≤ b`, so every concrete outcome of the Python call is a possible
  oracle outcome); `choice` is the single index draw used by `random.choice`.
* Rendering state (sprites, pixel layout, fonts, sounds) is presentation-only and is
  omitted; a damage popup keeps its text, its color, its remaining lifetime and an
  origin tag recording which base position (`enemy_positions[idx]` or the player
  sprite) the source positions it at.
-/

namespace SAFE

/-- Creature state, from `Creature.__init__` in `src/creature.py` (the `sprite`
field is presentation-only and omitted). -/
structure Creature where
  element : String
  level : Int
  max_health : Int
  current_health : Int
  damage_min : Int
  damage_max : Int
  max_special_uses : Int
  special_uses : Int
deriving DecidableEq, Repr

/-- A creature as produced by `Creature.__init__(element, level)`: every stat
starts at 1 and `special_uses = max_special_uses`. -/
def mkCreature (element : String) (level : Int) : Creature :=
  { element := element, level := level, max_health := 1, current_health := 1,
    damage_min := 1, damage_max := 1, max_special_uses := 1, special_uses := 1 }

def defaultCreature : Creature := mkCreature "" 1

instance : Inhabited Creature := ⟨defaultCreature⟩

/-- `Creature.configure_stats`. -/
def configure_stats (c : Creature)
    (base_hp hp_per_level base_dmg_min base_dmg_max dmg_per_level : Int) : Creature :=
  { c with
    max_health := base_hp + c.level * hp_per_level,
    current_health := base_hp + c.level * hp_per_level,
    damage_min := base_dmg_min + c.level * dmg_per_level,
    damage_max := base_dmg_max + c.level * dmg_per_level }

/-- `Creature.roll_damage`: `random.randint(damage_min, damage_max)`, with the raw
oracle draw `v` mapped into the inclusive range. -/
def roll_damage (c : Creature) (v : Int) : Int :=
  c.damage_min + v % (c.damage_max - c.damage_min + 1)

/-- `int(base * 1.35 + 6)` computed in exact arithmetic:
`base * 1.35 + 6 = (27*base + 120)/20`, and Python `int()` truncates toward
zero. The source evaluates the expression in IEEE-754 binary64, where the
literal `1.35` is the double `27/20 + 1/11258999068426240`; this exact form
agrees with the binary64 evaluation for every `|base| ≤ 10^12`: each of the
two roundings perturbs the value by at most `(1.35*|base| + 6) * 2^-53`, which
in that range is far below `1/20`, the distance from `27*base/20` to the next
integer whenever it is not itself an integer — and when it is an integer
(`base` a multiple of 20) both the product `base * fl(1.35)` and the
subsequent `+ 6` round to a value on the same side of it, because the integer
is exactly representable. The two evaluations first drift apart near
`base ≈ 2.1 * 10^14` (e.g. at `base = 10^15 + 8` binary64 gives
`1350000000000017` while this form gives `1350000000000016`), so claims about
this function are stated only for `|base| ≤ 10^12`. -/
def special_from_base (base : Int) : Int :=
  Int.tdiv (27 * base + 120) 20

/-- `Creature.roll_special_damage`: `int(self.roll_damage() * 1.35 + 6)`. -/
def roll_special_damage (c : Creature) (v : Int) : Int :=
  special_from_base (roll_damage c v)

/-- `Creature.take_damage`. -/
def take_damage (c : Creature) (amount : Int) : Creature :=
  { c with current_health := c.current_health - amount }

/-- `Creature.is_defeated`. -/
def is_defeated (c : Creature) : Bool :=
  decide (c.current_health ≤ 0)

/-- `Creature.level_up`. -/
def level_up (c : Creature) : Creature :=
  { c with level := c.level + 1 }

/-- `Creature.reset_after_battle`. -/
def reset_after_battle (c : Creature) : Creature :=
  { c with current_health := c.max_health, special_uses := c.max_special_uses }

/-- Battle outcome: the source uses `None`, `"WIN"`, `"LOSE"`; `None` (undecided)
is `Option.none` here. -/
inductive BOutcome
  | WIN
  | LOSE
deriving DecidableEq, Repr

/-- Which base position a popup is created at: `enemy_positions[idx]` or the
player sprite (`left_pos`). -/
inductive PopupOrigin
  | enemySlot (idx : Nat)
  | attacker
deriving DecidableEq, Repr

/-- A floating damage popup (`Battle._add_popup`); the pixel offsets are
presentation-only, the origin tag records which base position is used. -/
structure Popup where
  text : String
  origin : PopupOrigin
  color : Int × Int × Int
  time_left : ℚ
deriving DecidableEq, Repr

/-- `POPUP_DURATION = 0.9` seconds. -/
def popupDuration : ℚ := 9 / 10

/-- The popup created for a hit on the alive-view slot `idx` (color `(255,180,120)`,
positioned at `enemy_positions[idx]`). -/
def enemy_popup (damage : Int) (idx : Nat) : Popup :=
  { text := "-" ++ toString damage, origin := .enemySlot idx,
    color := (255, 180, 120), time_left := popupDuration }

/-- The popup created for a counterattack hit on the player (color `(255,120,120)`,
positioned at the player sprite). -/
def attacker_popup (damage : Int) : Popup :=
  { text := "-" ++ toString damage, origin := .attacker,
    color := (255, 120, 120), time_left := popupDuration }

/-- Battle state, from `Battle.__init__` (fonts, sounds, sprites, pixel layout
omitted). -/
structure Battle where
  player : Creature
  enemies : List Creature
  outcome : Option BOutcome
  target_index : Int
  message : String
  popups : List Popup
deriving DecidableEq, Repr

/-- Entropy consumed by one mutating call: `rolls m` is the m-th raw `randint`
draw, `choice` the raw draw used by the single `random.choice` of the call. -/
structure Oracle where
  rolls : Nat → Int
  choice : Nat

/-- `Battle._alive_enemies`: the alive view, a filter of the fixed-order list. -/
def alive_enemies (es : List Creature) : List Creature :=
  es.filter (fun c => !(is_defeated c))

/-- Positions (into the underlying fixed-order list) of the alive enemies, in
order: the index each element of `_alive_enemies` occupies in `self.enemies`. -/
def alive_indices : List Creature → List Nat
  | [] => []
  | c :: cs =>
    if is_defeated c then (alive_indices cs).map Nat.succ
    else 0 :: (alive_indices cs).map Nat.succ

/-- Replace the element at position `i` by `f` of it (in-place mutation of a list
element in the source); out-of-range leaves the list unchanged. -/
def modify_at : List Creature → Nat → (Creature → Creature) → List Creature
  | [], _, _ => []
  | c :: cs, 0, f => f c :: cs
  | c :: cs, Nat.succ n, f => c :: modify_at cs n f

/-- `max(0, min(ti, n - 1))`, the re-clamp of `target_index` against an alive view
of size `n` (`Battle._get_target` and the post-death re-clamps). -/
def clamp_ti (ti : Int) (n : Nat) : Int :=
  max 0 (min ti ((n : Int) - 1))

/-- `random.choice(l)` with the raw draw `k`: the element at `k % l.length`
(total: returns the default creature on an empty list, which the source never
passes to `random.choice`). -/
def pick (l : List Creature) (k : Nat) : Creature :=
  l.getD (k % l.length) defaultCreature

/-- `Battle._build_intro_message`. -/
def build_intro_message (enemies : List Creature) : String :=
  if enemies.length = 0 then "An eerie silence fills the battlefield..."
  else if enemies.length = 1 then
    "A wild " ++ (enemies.headD defaultCreature).element ++ " creature appears!"
  else toString enemies.length ++ " enemies appear!"

/-- `Battle.__init__` (after the `isinstance` wrapping of a single enemy into a
one-element list): outcome starts undecided, `target_index = 0`, the intro
message is built, no popups. -/
def mkBattle (player : Creature) (enemies : List Creature) : Battle :=
  { player := player, enemies := enemies, outcome := none, target_index := 0,
    message := build_intro_message enemies, popups := [] }

/-- The area-effect loop of `Battle._player_attack`
(`for idx, enemy in enumerate(list(alive)): ...`): `idxs` are the underlying
positions of the snapshotted alive view, `k` the running loop index. Iteration
`k` rolls `roll_special_damage` from draw `rolls k`, applies it to the
snapshotted target, and records the popup at alive-view slot `k`. Returns the
updated enemy list, the damage total, and the popups in creation order. -/
def aoe_step (p : Creature) (o : Oracle) :
    List Creature → List Nat → Nat → List Creature × Int × List Popup
  | es, [], _ => (es, 0, [])
  | es, i :: rest, k =>
    let d := roll_special_damage p (o.rolls k)
    let es2 := modify_at es i (fun c => take_damage c d)
    let r := aoe_step p o es2 rest (k + 1)
    (r.1, d + r.2.1, enemy_popup d k :: r.2.2)

/-- The player after `self.player.special_uses -= 1`. -/
def pdec (b : Battle) : Creature :=
  { b.player with special_uses := b.player.special_uses - 1 }

/-- The full area-effect loop of `Battle._player_attack`, run over the
snapshotted alive view starting at loop index 0. -/
def aoe_result (b : Battle) (o : Oracle) : List Creature × Int × List Popup :=
  aoe_step (pdec b) o b.enemies (alive_indices b.enemies) 0

/-- The enemy list after the area-effect loop. -/
def aoe_es (b : Battle) (o : Oracle) : List Creature := (aoe_result b o).1

/-- `total_damage` accumulated by the area-effect loop. -/
def aoe_total (b : Battle) (o : Oracle) : Int := (aoe_result b o).2.1

/-- The popups created by the area-effect loop, in creation order. -/
def aoe_popups (b : Battle) (o : Oracle) : List Popup := (aoe_result b o).2.2

/-- `enemy_damage` of the counterattack after an area-effect special:
`random.choice(self._alive_enemies()).roll_damage()`, consuming the draw after
the per-target rolls. -/
def aoe_ed (b : Battle) (o : Oracle) : Int :=
  roll_damage (pick (alive_enemies (aoe_es b o)) o.choice)
    (o.rolls (alive_indices b.enemies).length)

/-- The player after the counterattack in the area-effect branch. -/
def aoe_p2 (b : Battle) (o : Oracle) : Creature :=
  take_damage (pdec b) (aoe_ed b o)

/-- The multi-target special branch of `Battle._player_attack`
(`if use_special and len(alive) > 1`). -/
def special_aoe (b : Battle) (o : Oracle) : Battle :=
  if alive_enemies (aoe_es b o) = [] then
    { b with player := pdec b, enemies := aoe_es b o, outcome := some .WIN,
             message := "Enemies defeated!", popups := b.popups ++ aoe_popups b o }
  else if is_defeated (aoe_p2 b o) then
    { b with player := aoe_p2 b o, enemies := aoe_es b o, outcome := some .LOSE,
             target_index := clamp_ti b.target_index (alive_enemies (aoe_es b o)).length,
             message := "You have been defeated!",
             popups := b.popups ++ aoe_popups b o ++ [attacker_popup (aoe_ed b o)] }
  else
    { b with player := aoe_p2 b o, enemies := aoe_es b o,
             target_index := clamp_ti b.target_index (alive_enemies (aoe_es b o)).length,
             message := "Special hit all enemies for " ++ toString (aoe_total b o) ++
               " total. Enemy hit back for " ++ toString (aoe_ed b o) ++ ".",
             popups := b.popups ++ aoe_popups b o ++ [attacker_popup (aoe_ed b o)] }

/-- The position in the underlying enemy list of the creature `_get_target`
returns (`alive[self.target_index]` after the clamp): the element of
`_alive_indices` at the clamped `target_index`. -/
def target_under_index (b : Battle) : Nat :=
  (alive_indices b.enemies).getD
    (clamp_ti b.target_index (alive_enemies b.enemies).length).toNat 0

/-- The clamped `target_index` that `_get_target` stores back before the
single-target attack resolves. -/
def single_ti (b : Battle) : Int :=
  clamp_ti b.target_index (alive_enemies b.enemies).length

/-- The damage rolled in the single-target branch: `roll_special_damage()`
(consuming one basic draw) on the special path, `roll_damage()` otherwise. -/
def single_dmg (b : Battle) (use_special : Bool) (o : Oracle) : Int :=
  if use_special then roll_special_damage b.player (o.rolls 0)
  else roll_damage b.player (o.rolls 0)

/-- The player after the single-target damage phase (`special_uses -= 1` on the
special path only). -/
def single_p (b : Battle) (use_special : Bool) : Creature :=
  if use_special then pdec b else b.player

/-- The enemy list after the single-target hit lands on `_get_target`'s pick. -/
def single_es (b : Battle) (use_special : Bool) (o : Oracle) : List Creature :=
  modify_at b.enemies (target_under_index b)
    (fun c => take_damage c (single_dmg b use_special o))

/-- The targeted creature as it stands after taking the hit. -/
def single_tgt (b : Battle) (use_special : Bool) (o : Oracle) : Creature :=
  (single_es b use_special o).getD (target_under_index b) defaultCreature

/-- The re-clamped target index after the hit: re-clamped against the shrunk
alive view only when the target fell. -/
def single_ti2 (b : Battle) (use_special : Bool) (o : Oracle) : Int :=
  if is_defeated (single_tgt b use_special o) then
    clamp_ti (single_ti b) (alive_enemies (single_es b use_special o)).length
  else single_ti b

/-- `enemy_damage` of the counterattack in the single-target branch:
`random.choice(self._alive_enemies()).roll_damage()`. -/
def single_ed (b : Battle) (use_special : Bool) (o : Oracle) : Int :=
  roll_damage (pick (alive_enemies (single_es b use_special o)) o.choice) (o.rolls 1)

/-- The player after the counterattack in the single-target branch. -/
def single_p2 (b : Battle) (use_special : Bool) (o : Oracle) : Creature :=
  take_damage (single_p b use_special) (single_ed b use_special o)

/-- The single-target branch of `Battle._player_attack`: `_get_target` clamps
`target_index` and picks `alive[target_index]`, the damage is rolled (special
uses decremented on the special path), applied, a popup added; on a finishing
blow with no survivors the outcome becomes WIN, otherwise `target_index` is
re-clamped if the target fell and one random alive enemy counterattacks.
Only reached with a non-empty alive view (so `_get_target` cannot return
`None`; the `target is None` branch of the source is unreachable there). -/
def single_attack (b : Battle) (use_special : Bool) (o : Oracle) : Battle :=
  if is_defeated (single_tgt b use_special o)
      ∧ alive_enemies (single_es b use_special o) = [] then
    { b with player := single_p b use_special, enemies := single_es b use_special o,
             target_index := single_ti b, outcome := some .WIN,
             message := "Enemy defeated!",
             popups := b.popups
               ++ [enemy_popup (single_dmg b use_special o) (single_ti b).toNat] }
  else if is_defeated (single_p2 b use_special o) then
    { b with player := single_p2 b use_special o, enemies := single_es b use_special o,
             target_index := single_ti2 b use_special o, outcome := some .LOSE,
             message := "You have been defeated!",
             popups := b.popups
               ++ [enemy_popup (single_dmg b use_special o) (single_ti b).toNat]
               ++ [attacker_popup (single_ed b use_special o)] }
  else
    { b with player := single_p2 b use_special o, enemies := single_es b use_special o,
             target_index := single_ti2 b use_special o,
             message := "You dealt " ++ toString (single_dmg b use_special o) ++
               ". Enemy hit back for " ++ toString (single_ed b use_special o) ++ ".",
             popups := b.popups
               ++ [enemy_popup (single_dmg b use_special o) (single_ti b).toNat]
               ++ [attacker_popup (single_ed b use_special o)] }

/-- `Battle._player_attack`. -/
def player_attack (b : Battle) (use_special : Bool) (o : Oracle) : Battle :=
  if use_special ∧ b.player.special_uses ≤ 0 then b
  else if alive_enemies b.enemies = [] then
    { b with outcome := some .WIN, message := "Enemy defeated!" }
  else if use_special ∧ 1 < (alive_enemies b.enemies).length then special_aoe b o
  else single_attack b use_special o

/-- The player intents `Battle.handle_event` reacts to. `clickEnemy idx` is a
left mouse click that `_enemy_at_pos` resolves to alive-view slot `idx`
(`_enemy_at_pos` only ever returns a slot below the alive count); `other` is any
event matching none of the handled cases. -/
inductive BEvent
  | keyPrev
  | keyNext
  | keyAttack
  | keySpecial
  | clickEnemy (idx : Nat)
  | clickAttackBtn
  | clickSpecialBtn
  | other

/-- Target cycling (`self.target_index = (self.target_index ± 1) % len(alive)`);
Python `%` on a positive modulus is `Int.emod`. -/
def cycle_target (b : Battle) (delta : Int) : Battle :=
  let alive := alive_enemies b.enemies
  if alive = [] then b
  else { b with target_index := (b.target_index + delta) % (alive.length : Int) }

/-- `Battle.handle_event` (sound playback omitted). -/
def handle_event (b : Battle) (e : BEvent) (o : Oracle) : Battle :=
  if b.outcome ≠ none then b
  else
    match e with
    | .keyPrev => cycle_target b (-1)
    | .keyNext => cycle_target b 1
    | .keyAttack => player_attack b false o
    | .keySpecial =>
      if 0 < b.player.special_uses then player_attack b true o
      else { b with message := "No special uses left!" }
    | .clickEnemy idx =>
      if idx < (alive_enemies b.enemies).length then
        { b with target_index := (idx : Int) }
      else b
    | .clickAttackBtn => player_attack b false o
    | .clickSpecialBtn =>
      if 0 < b.player.special_uses then player_attack b true o
      else { b with message := "No special uses left!" }
    | .other => b

/-- One tick of lifetime decay for a popup (`popup["time_left"] -= dt`). -/
def decay_popup (dt : ℚ) (p : Popup) : Popup :=
  { p with time_left := p.time_left - dt }

/-- `Battle.update(dt)`: decay popup lifetimes and drop the expired ones (the
vertical drift of live popups is presentation-only). -/
def update (b : Battle) (dt : ℚ) : Battle :=
  { b with popups :=
      List.filter (fun p => decide (0 < p.time_left)) (List.map (decay_popup dt) b.popups) }

/-- A popup is a counterattack popup exactly when it is positioned at the
player sprite. -/
def is_counter (p : Popup) : Bool := decide (p.origin = .attacker)

/-- The counterattack popups (positioned at the attacker) among `ps`. -/
def counter_popups (ps : List Popup) : List Popup := ps.filter is_counter

/-- The popups recording hits on enemies among `ps`. -/
def enemy_hit_popups (ps : List Popup) : List Popup := ps.filter (fun p => !(is_counter p))

/-- `target_index` is valid for the current alive view: whenever some opponent
is alive, it lies in `[0, aliveCount - 1]`. -/
abbrev ti_valid (b : Battle) : Prop :=
  alive_enemies b.enemies ≠ [] →
    0 ≤ b.target_index ∧ b.target_index < ((alive_enemies b.enemies).length : Int)

/-! ### Concrete fixtures used by witnesses and counterexamples -/

def exPlayer : Creature :=
  { element := "player", level := 1, max_health := 30, current_health := 30,
    damage_min := 10, damage_max := 10, max_special_uses := 2, special_uses := 2 }

def exEnemy (hp : Int) : Creature :=
  { element := "enemy", level := 1, max_health := hp, current_health := hp,
    damage_min := 3, damage_max := 3, max_special_uses := 1, special_uses := 1 }

def exOracle : Oracle := { rolls := fun _ => 0, choice := 0 }

def exDecided : Battle := { mkBattle exPlayer [exEnemy 10] with outcome := some .WIN }

def exNoUses : Battle := mkBattle { exPlayer with special_uses := 0 } [exEnemy 10]

/-- A creature whose configured damage range is `[-10, -10]`, reachable through
`configure_stats` (the source puts no sign constraint on the configuration). -/
def exImp : Creature := configure_stats (mkCreature "imp" 1) 10 0 (-11) (-11) 1


/-! ### Helper lemmas about the embedded list operations -/

theorem modify_at_length (f : Creature → Creature) :
    ∀ (es : List Creature) (i : Nat), (modify_at es i f).length = es.length
  | [], _ => rfl
  | _ :: cs, 0 => rfl
  | _ :: cs, Nat.succ n => by simp [modify_at, modify_at_length f cs n]

theorem modify_at_get? (f : Creature → Creature) :
    ∀ (es : List Creature) (i j : Nat),
      (modify_at es i f).get? j = if j = i then (es.get? j).map f else es.get? j
  | [], i, j => by simp [modify_at]
  | c :: cs, 0, 0 => by simp [modify_at]
  | c :: cs, 0, j + 1 => by simp [modify_at]
  | c :: cs, i + 1, 0 => by simp [modify_at]
  | c :: cs, i + 1, j + 1 => by simpa [modify_at] using modify_at_get? f cs i j

theorem alive_indices_mem_lt :
    ∀ (es : List Creature) (i : Nat), i ∈ alive_indices es → i < es.length := by
  intro es
  induction es with
  | nil => intro i h; simp [alive_indices] at h
  | cons c cs ih =>
    intro i h
    by_cases hc : is_defeated c <;> simp [alive_indices, hc] at h
    · obtain ⟨j, hj, rfl⟩ := h
      have := ih j hj
      simp
      omega
    · rcases h with rfl | ⟨j, hj, rfl⟩
      · simp
      · have := ih j hj
        simp
        omega

theorem alive_indices_get? :
    ∀ (es : List Creature) (i : Nat), i ∈ alive_indices es →
      ∃ c, es.get? i = some c ∧ is_defeated c = false := by
  intro es
  induction es with
  | nil => intro i h; simp [alive_indices] at h
  | cons c cs ih =>
    intro i h
    by_cases hc : is_defeated c <;> simp [alive_indices, hc] at h
    · obtain ⟨j, hj, rfl⟩ := h
      simpa using ih j hj
    · rcases h with rfl | ⟨j, hj, rfl⟩
      · exact ⟨c, rfl, by simpa using hc⟩
      · simpa using ih j hj

theorem alive_indices_nodup : ∀ es : List Creature, (alive_indices es).Nodup := by
  intro es
  induction es with
  | nil => simp [alive_indices]
  | cons c cs ih =>
    have hmap : ((alive_indices cs).map Nat.succ).Nodup :=
      ih.map (fun a b hab => Nat.succ_injective hab)
    by_cases hc : is_defeated c <;> simp [alive_indices, hc, hmap]

theorem alive_indices_length :
    ∀ es : List Creature, (alive_indices es).length = (alive_enemies es).length := by
  intro es
  induction es with
  | nil => rfl
  | cons c cs ih =>
    by_cases hc : is_defeated c <;>
      · simp [alive_indices, alive_enemies, List.filter_cons, hc] at ih ⊢
        omega

theorem mem_alive_of_mem {es : List Creature} {c : Creature}
    (hm : c ∈ es) (hd : is_defeated c = false) : c ∈ alive_enemies es := by
  simp [alive_enemies, List.mem_filter, hm, hd]

theorem alive_all_defeated {es : List Creature} (h : alive_enemies es = []) :
    ∀ c ∈ es, is_defeated c = true := by
  intro c hc
  by_contra hfalse
  have : c ∈ alive_enemies es :=
    mem_alive_of_mem hc (by simpa using hfalse)
  simp [h] at this

theorem getD_mem_of_lt {α : Type} :
    ∀ (l : List α) (n : Nat) (d : α), n < l.length → l.getD n d ∈ l
  | a :: l, 0, d, _ => by simp
  | a :: l, n + 1, d, h => by
    have := getD_mem_of_lt l n d (by simpa using h)
    simpa using Or.inr this

theorem getD_eq_of_get? {α : Type} :
    ∀ (l : List α) (n : Nat) (d a : α), l.get? n = some a → l.getD n d = a
  | c :: cs, 0, d, a, h => by simpa using h
  | c :: cs, n + 1, d, a, h => by
    simpa using getD_eq_of_get? cs n d a (by simpa using h)

theorem pick_mem (l : List Creature) (k : Nat) (h : l ≠ []) : pick l k ∈ l :=
  getD_mem_of_lt _ _ _ (Nat.mod_lt _ (List.length_pos.mpr h))

theorem counter_popups_append (a b : List Popup) :
    counter_popups (a ++ b) = counter_popups a ++ counter_popups b :=
  List.filter_append ..

theorem enemy_hit_popups_append (a b : List Popup) :
    enemy_hit_popups (a ++ b) = enemy_hit_popups a ++ enemy_hit_popups b :=
  List.filter_append ..

theorem is_counter_enemy_popup (d : Int) (i : Nat) :
    is_counter (enemy_popup d i) = false := rfl

theorem is_counter_attacker_popup (d : Int) :
    is_counter (attacker_popup d) = true := rfl

theorem counter_popups_map_enemy (f : Nat → Popup)
    (hf : ∀ m, is_counter (f m) = false) (l : List Nat) :
    counter_popups (l.map f) = [] := by
  induction l with
  | nil => rfl
  | cons a l ih =>
    simp only [counter_popups, List.map_cons, List.filter_cons] at ih ⊢
    simp [hf a, ih]

theorem enemy_hit_popups_map_enemy (f : Nat → Popup)
    (hf : ∀ m, is_counter (f m) = false) (l : List Nat) :
    enemy_hit_popups (l.map f) = l.map f := by
  induction l with
  | nil => rfl
  | cons a l ih =>
    simp only [enemy_hit_popups, List.map_cons, List.filter_cons] at ih ⊢
    simp [hf a, ih]

theorem counter_popups_attacker_singleton (d : Int) :
    counter_popups [attacker_popup d] = [attacker_popup d] := rfl

theorem enemy_hit_popups_attacker_singleton (d : Int) :
    enemy_hit_popups [attacker_popup d] = [] := rfl

theorem counter_popups_enemy_singleton (d : Int) (i : Nat) :
    counter_popups [enemy_popup d i] = [] := rfl

theorem enemy_hit_popups_enemy_singleton (d : Int) (i : Nat) :
    enemy_hit_popups [enemy_popup d i] = [enemy_popup d i] := rfl

theorem clamp_ti_bounds (ti : Int) (n : Nat) (h : 0 < n) :
    0 ≤ clamp_ti ti n ∧ clamp_ti ti n < (n : Int) := by
  unfold clamp_ti
  constructor
  · exact le_max_left 0 _
  · refine max_lt (by exact_mod_cast h) ?_
    have h1 : min ti ((n : Int) - 1) ≤ (n : Int) - 1 := min_le_right ..
    omega

theorem roll_special_uses_irrel (c : Creature) (x v : Int) :
    roll_special_damage { c with special_uses := x } v = roll_special_damage c v := rfl

theorem alive_length_modify (f : Creature → Creature) :
    ∀ (es : List Creature) (i : Nat) (c : Creature),
      es.get? i = some c → is_defeated (f c) = is_defeated c →
      (alive_enemies (modify_at es i f)).length = (alive_enemies es).length := by
  intro es
  induction es with
  | nil => intro i c h; simp at h
  | cons a cs ih =>
    intro i c h hstat
    match i with
    | 0 =>
      have hac : a = c := by simpa using h
      subst hac
      by_cases ha : is_defeated a = true <;>
        simp [modify_at, alive_enemies, List.filter_cons, ha, hstat]
    | Nat.succ n =>
      have h2 : cs.get? n = some c := by simpa using h
      have := ih n c h2 hstat
      by_cases ha : is_defeated a = true <;>
        simp [modify_at, alive_enemies, List.filter_cons, ha] <;>
        simpa [alive_enemies] using this

/-! ### Lemmas about the area-effect loop -/

theorem aoe_step_fst_length (p : Creature) (o : Oracle) :
    ∀ (idxs : List Nat) (es : List Creature) (k : Nat),
      (aoe_step p o es idxs k).1.length = es.length := by
  intro idxs
  induction idxs with
  | nil => intro es k; rfl
  | cons i rest ih =>
    intro es k
    simp [aoe_step, ih, modify_at_length]

theorem aoe_step_get?_not_mem (p : Creature) (o : Oracle) :
    ∀ (idxs : List Nat) (es : List Creature) (k j : Nat), j ∉ idxs →
      (aoe_step p o es idxs k).1.get? j = es.get? j := by
  intro idxs
  induction idxs with
  | nil => intro es k j _; rfl
  | cons i rest ih =>
    intro es k j hj
    have hji : j ≠ i := fun h => hj (h ▸ List.mem_cons_self i rest)
    have hjr : j ∉ rest := fun h => hj (List.mem_cons_of_mem i h)
    simp only [aoe_step]
    rw [ih _ _ _ hjr, modify_at_get?, if_neg hji]

theorem aoe_step_get?_target (p : Creature) (o : Oracle) :
    ∀ (idxs : List Nat) (es : List Creature) (k m : Nat) (h : m < idxs.length),
      idxs.Nodup →
      (aoe_step p o es idxs k).1.get? (idxs.get ⟨m, h⟩)
        = (es.get? (idxs.get ⟨m, h⟩)).map
            (fun c => take_damage c (roll_special_damage p (o.rolls (k + m)))) := by
  intro idxs
  induction idxs with
  | nil => intro es k m h; simp at h
  | cons i rest ih =>
    intro es k m h hnd
    have hir : i ∉ rest := by
      rw [List.nodup_cons] at hnd
      exact hnd.1
    have hrest : rest.Nodup := by
      rw [List.nodup_cons] at hnd
      exact hnd.2
    match m with
    | 0 =>
      simp only [aoe_step, List.get]
      rw [aoe_step_get?_not_mem p o rest _ _ i hir, modify_at_get?, if_pos rfl]
      simp
    | Nat.succ m0 =>
      have hm0 : m0 < rest.length := by simpa using h
      have ht : rest.get ⟨m0, hm0⟩ ∈ rest := List.get_mem rest m0 hm0
      have hti : rest.get ⟨m0, hm0⟩ ≠ i := fun hEq => hir (hEq ▸ ht)
      simp only [aoe_step, List.get]
      rw [ih _ (k + 1) m0 hm0 hrest, modify_at_get?, if_neg hti]
      have harith : k + 1 + m0 = k + (m0 + 1) := by omega
      rw [harith]

theorem aoe_step_total (p : Creature) (o : Oracle) :
    ∀ (idxs : List Nat) (es : List Creature) (k : Nat),
      (aoe_step p o es idxs k).2.1
        = ((List.range idxs.length).map
            (fun m => roll_special_damage p (o.rolls (k + m)))).sum := by
  intro idxs
  induction idxs with
  | nil => intro es k; rfl
  | cons i rest ih =>
    intro es k
    have hfun : ((fun m => roll_special_damage p (o.rolls (k + m))) ∘ Nat.succ)
        = fun m => roll_special_damage p (o.rolls (k + 1 + m)) := by
      funext m
      simp only [Function.comp]
      have harith : k + Nat.succ m = k + 1 + m := by omega
      rw [harith]
    simp only [aoe_step, ih, List.length_cons, List.range_succ_eq_map,
      List.map_cons, List.map_map, List.sum_cons, hfun]
    simp

theorem aoe_step_popups (p : Creature) (o : Oracle) :
    ∀ (idxs : List Nat) (es : List Creature) (k : Nat),
      (aoe_step p o es idxs k).2.2
        = (List.range idxs.length).map
            (fun m => enemy_popup (roll_special_damage p (o.rolls (k + m))) (k + m)) := by
  intro idxs
  induction idxs with
  | nil => intro es k; rfl
  | cons i rest ih =>
    intro es k
    have hfun : ((fun m => enemy_popup (roll_special_damage p (o.rolls (k + m))) (k + m))
          ∘ Nat.succ)
        = fun m => enemy_popup (roll_special_damage p (o.rolls (k + 1 + m))) (k + 1 + m) := by
      funext m
      simp only [Function.comp]
      have harith : k + Nat.succ m = k + 1 + m := by omega
      rw [harith]
    simp only [aoe_step, ih, List.length_cons, List.range_succ_eq_map,
      List.map_cons, List.map_map, hfun]
    simp

/-! ### Branch-reduction lemmas for `handle_event` and `player_attack` -/

theorem handle_event_frozen (b : Battle) (e : BEvent) (o : Oracle)
    (h : b.outcome ≠ none) : handle_event b e o = b := by
  unfold handle_event
  rw [if_pos h]

theorem handle_event_basic_key (b : Battle) (o : Oracle) (h : b.outcome = none) :
    handle_event b .keyAttack o = player_attack b false o := by
  unfold handle_event
  rw [if_neg (by simp [h])]

theorem handle_event_basic_btn (b : Battle) (o : Oracle) (h : b.outcome = none) :
    handle_event b .clickAttackBtn o = player_attack b false o := by
  unfold handle_event
  rw [if_neg (by simp [h])]

theorem handle_event_special_key (b : Battle) (o : Oracle) (h : b.outcome = none)
    (hu : 0 < b.player.special_uses) :
    handle_event b .keySpecial o = player_attack b true o := by
  unfold handle_event
  rw [if_neg (by simp [h])]
  simp [hu]

theorem handle_event_special_btn (b : Battle) (o : Oracle) (h : b.outcome = none)
    (hu : 0 < b.player.special_uses) :
    handle_event b .clickSpecialBtn o = player_attack b true o := by
  unfold handle_event
  rw [if_neg (by simp [h])]
  simp [hu]

theorem player_attack_eq_aoe (b : Battle) (us : Bool) (o : Oracle)
    (hrej : ¬(us = true ∧ b.player.special_uses ≤ 0))
    (hne : alive_enemies b.enemies ≠ [])
    (hmany : us = true ∧ 1 < (alive_enemies b.enemies).length) :
    player_attack b us o = special_aoe b o := by
  unfold player_attack
  rw [if_neg hrej, if_neg hne, if_pos hmany]

theorem player_attack_eq_single (b : Battle) (us : Bool) (o : Oracle)
    (hrej : ¬(us = true ∧ b.player.special_uses ≤ 0))
    (hne : alive_enemies b.enemies ≠ [])
    (hmany : ¬(us = true ∧ 1 < (alive_enemies b.enemies).length)) :
    player_attack b us o = single_attack b us o := by
  unfold player_attack
  rw [if_neg hrej, if_neg hne, if_neg hmany]

theorem player_attack_eq_empty (b : Battle) (us : Bool) (o : Oracle)
    (hrej : ¬(us = true ∧ b.player.special_uses ≤ 0))
    (hne : alive_enemies b.enemies = []) :
    player_attack b us o = { b with outcome := some .WIN, message := "Enemy defeated!" } := by
  unfold player_attack
  rw [if_neg hrej, if_pos hne]

/-! ### Special-use accounting -/

theorem special_aoe_uses (b : Battle) (o : Oracle) :
    (special_aoe b o).player.special_uses = b.player.special_uses - 1 := by
  simp only [special_aoe]
  split_ifs <;> rfl

theorem single_attack_uses_false (b : Battle) (o : Oracle) :
    (single_attack b false o).player.special_uses = b.player.special_uses := by
  simp only [single_attack]
  split_ifs <;> simp [single_p, single_p2, take_damage, pdec]

theorem single_attack_uses_true (b : Battle) (o : Oracle) :
    (single_attack b true o).player.special_uses = b.player.special_uses - 1 := by
  simp only [single_attack]
  split_ifs <;> simp [single_p, single_p2, take_damage, pdec]

theorem player_attack_uses_false (b : Battle) (o : Oracle) :
    (player_attack b false o).player.special_uses = b.player.special_uses := by
  have hrej : ¬(false = true ∧ b.player.special_uses ≤ 0) := by simp
  have hmany : ¬(false = true ∧ 1 < (alive_enemies b.enemies).length) := by simp
  by_cases h2 : alive_enemies b.enemies = []
  · rw [player_attack_eq_empty b false o hrej h2]
  · rw [player_attack_eq_single b false o hrej h2 hmany, single_attack_uses_false]

theorem player_attack_uses_true (b : Battle) (o : Oracle)
    (hu : 0 < b.player.special_uses) (hne : alive_enemies b.enemies ≠ []) :
    (player_attack b true o).player.special_uses = b.player.special_uses - 1 := by
  have hrej : ¬(true = true ∧ b.player.special_uses ≤ 0) := by
    simp
    omega
  by_cases hmany : true = true ∧ 1 < (alive_enemies b.enemies).length
  · rw [player_attack_eq_aoe b true o hrej hne hmany]
    exact special_aoe_uses b o
  · rw [player_attack_eq_single b true o hrej hne hmany, single_attack_uses_true]

theorem player_attack_uses_cases (b : Battle) (us : Bool) (o : Oracle) :
    (player_attack b us o).player.special_uses = b.player.special_uses ∨
      (0 < b.player.special_uses ∧
        (player_attack b us o).player.special_uses = b.player.special_uses - 1) := by
  cases us
  · exact Or.inl (player_attack_uses_false b o)
  · by_cases h1 : b.player.special_uses ≤ 0
    · left
      unfold player_attack
      rw [if_pos ⟨rfl, h1⟩]
    · by_cases h2 : alive_enemies b.enemies = []
      · left
        rw [player_attack_eq_empty b true o (by simp [h1]) h2]
      · exact Or.inr ⟨by omega, player_attack_uses_true b o (by omega) h2⟩

theorem cycle_target_player (b : Battle) (d : Int) :
    (cycle_target b d).player = b.player := by
  simp only [cycle_target]
  split_ifs <;> rfl

/-! ### Target resolution in the single-target branch -/

theorem target_under_index_mem (b : Battle) (hne : alive_enemies b.enemies ≠ []) :
    target_under_index b ∈ alive_indices b.enemies := by
  have hlen : 0 < (alive_enemies b.enemies).length := List.length_pos.mpr hne
  have hcl := clamp_ti_bounds b.target_index (alive_enemies b.enemies).length hlen
  apply getD_mem_of_lt
  rw [alive_indices_length]
  omega

theorem target_orig (b : Battle) (hne : alive_enemies b.enemies ≠ []) :
    ∃ c, b.enemies.get? (target_under_index b) = some c ∧ is_defeated c = false :=
  alive_indices_get? b.enemies _ (target_under_index_mem b hne)

theorem single_es_spec (b : Battle) (dmg : Int) (hne : alive_enemies b.enemies ≠ []) :
    ∃ c, b.enemies.get? (target_under_index b) = some c ∧ is_defeated c = false ∧
      (modify_at b.enemies (target_under_index b) (fun x => take_damage x dmg)).getD
        (target_under_index b) defaultCreature = take_damage c dmg := by
  obtain ⟨c, hc, hcd⟩ := target_orig b hne
  refine ⟨c, hc, hcd, ?_⟩
  apply getD_eq_of_get?
  rw [modify_at_get?, if_pos rfl, hc]
  rfl

theorem single_attack_dead_target (b : Battle) (dmg : Int)
    (hne : alive_enemies b.enemies ≠ [])
    (hdead : alive_enemies (modify_at b.enemies (target_under_index b)
        (fun x => take_damage x dmg)) = []) :
    is_defeated ((modify_at b.enemies (target_under_index b)
        (fun x => take_damage x dmg)).getD (target_under_index b) defaultCreature)
      = true := by
  apply alive_all_defeated hdead
  apply getD_mem_of_lt
  rw [modify_at_length]
  exact alive_indices_mem_lt b.enemies _ (target_under_index_mem b hne)

theorem single_attack_alive_length (b : Battle) (dmg : Int)
    (hne : alive_enemies b.enemies ≠ [])
    (halive : is_defeated ((modify_at b.enemies (target_under_index b)
        (fun x => take_damage x dmg)).getD (target_under_index b) defaultCreature)
      = false) :
    (alive_enemies (modify_at b.enemies (target_under_index b)
        (fun x => take_damage x dmg))).length = (alive_enemies b.enemies).length := by
  obtain ⟨c, hc, hcd, htgt⟩ := single_es_spec b dmg hne
  refine alive_length_modify _ b.enemies _ c hc ?_
  rw [htgt] at halive
  rw [halive, hcd]

theorem counter_popups_aoe (pd : Creature) (o : Oracle) (es : List Creature)
    (idxs : List Nat) (k : Nat) :
    counter_popups (aoe_step pd o es idxs k).2.2 = [] := by
  rw [aoe_step_popups]
  apply counter_popups_map_enemy
  intro m
  rfl

theorem enemy_hit_popups_aoe (pd : Creature) (o : Oracle) (es : List Creature)
    (idxs : List Nat) (k : Nat) :
    enemy_hit_popups (aoe_step pd o es idxs k).2.2 = (aoe_step pd o es idxs k).2.2 := by
  rw [aoe_step_popups]
  apply enemy_hit_popups_map_enemy
  intro m
  rfl

theorem counter_popups_aoe_popups (b : Battle) (o : Oracle) :
    counter_popups (aoe_popups b o) = [] := by
  unfold aoe_popups aoe_result
  exact counter_popups_aoe _ _ _ _ _

theorem enemy_hit_popups_aoe_popups (b : Battle) (o : Oracle) :
    enemy_hit_popups (aoe_popups b o) = aoe_popups b o := by
  unfold aoe_popups aoe_result
  exact enemy_hit_popups_aoe _ _ _ _ _

theorem single_p_health (b : Battle) (us : Bool) :
    (single_p b us).current_health = b.player.current_health := by
  cases us <;> rfl

theorem single_tgt_dead (b : Battle) (us : Bool) (o : Oracle)
    (hne : alive_enemies b.enemies ≠ [])
    (hdead : alive_enemies (single_es b us o) = []) :
    is_defeated (single_tgt b us o) = true := by
  unfold single_tgt
  unfold single_es at hdead ⊢
  exact single_attack_dead_target b _ hne hdead

theorem handle_event_uses_cases (b : Battle) (e : BEvent) (o : Oracle) :
    (handle_event b e o).player.special_uses = b.player.special_uses ∨
      (0 < b.player.special_uses ∧
        (handle_event b e o).player.special_uses = b.player.special_uses - 1) := by
  by_cases hout : b.outcome = none
  case neg =>
    rw [handle_event_frozen b e o hout]
    exact Or.inl rfl
  case pos =>
    cases e with
    | keyPrev =>
      rw [show handle_event b .keyPrev o = cycle_target b (-1) from by
        unfold handle_event; rw [if_neg (by simp [hout])]]
      rw [cycle_target_player]
      exact Or.inl rfl
    | keyNext =>
      rw [show handle_event b .keyNext o = cycle_target b 1 from by
        unfold handle_event; rw [if_neg (by simp [hout])]]
      rw [cycle_target_player]
      exact Or.inl rfl
    | keyAttack =>
      rw [handle_event_basic_key b o hout]
      exact player_attack_uses_cases b false o
    | keySpecial =>
      by_cases hu : 0 < b.player.special_uses
      · rw [handle_event_special_key b o hout hu]
        exact player_attack_uses_cases b true o
      · rw [show handle_event b .keySpecial o
            = { b with message := "No special uses left!" } from by
          unfold handle_event; rw [if_neg (by simp [hout])]; simp [hu]]
        exact Or.inl rfl
    | clickEnemy idx =>
      by_cases hidx : idx < (alive_enemies b.enemies).length
      · rw [show handle_event b (.clickEnemy idx) o
            = { b with target_index := (idx : Int) } from by
          unfold handle_event; rw [if_neg (by simp [hout])]; simp [hidx]]
        exact Or.inl rfl
      · rw [show handle_event b (.clickEnemy idx) o = b from by
          unfold handle_event; rw [if_neg (by simp [hout])]; simp [hidx]]
        exact Or.inl rfl
    | clickAttackBtn =>
      rw [handle_event_basic_btn b o hout]
      exact player_attack_uses_cases b false o
    | clickSpecialBtn =>
      by_cases hu : 0 < b.player.special_uses
      · rw [handle_event_special_btn b o hout hu]
        exact player_attack_uses_cases b true o
      · rw [show handle_event b .clickSpecialBtn o
            = { b with message := "No special uses left!" } from by
          unfold handle_event; rw [if_neg (by simp [hout])]; simp [hu]]
        exact Or.inl rfl
    | other =>
      rw [show handle_event b .other o = b from by
        unfold handle_event; rw [if_neg (by simp [hout])]]
      exact Or.inl rfl

/-! ### Target-index validity -/

theorem mk_ti_valid (p : Creature) (es : List Creature) : ti_valid (mkBattle p es) := by
  intro h
  refine ⟨le_refl 0, ?_⟩
  show (0 : Int) < ((alive_enemies es).length : Int)
  exact_mod_cast List.length_pos.mpr h

theorem cycle_target_ti_valid (b : Battle) (d : Int) (hv : ti_valid b) :
    ti_valid (cycle_target b d) := by
  unfold cycle_target
  by_cases hempty : alive_enemies b.enemies = []
  · rw [if_pos hempty]
    exact hv
  · rw [if_neg hempty]
    intro _
    have hlen : 0 < (alive_enemies b.enemies).length := List.length_pos.mpr hempty
    have hne0 : ((alive_enemies b.enemies).length : Int) ≠ 0 := by
      exact_mod_cast Nat.pos_iff_ne_zero.mp hlen
    exact ⟨Int.emod_nonneg _ hne0, Int.emod_lt_of_pos _ (by exact_mod_cast hlen)⟩

theorem special_aoe_ti_valid (b : Battle) (o : Oracle) : ti_valid (special_aoe b o) := by
  unfold special_aoe
  by_cases hwin : alive_enemies (aoe_es b o) = []
  · rw [if_pos hwin]
    intro halive
    exact absurd hwin halive
  · rw [if_neg hwin]
    have hlen : 0 < (alive_enemies (aoe_es b o)).length := List.length_pos.mpr hwin
    have hcl := clamp_ti_bounds b.target_index _ hlen
    by_cases hlose : is_defeated (aoe_p2 b o) = true
    · rw [if_pos hlose]
      intro _
      exact hcl
    · rw [if_neg hlose]
      intro _
      exact hcl

theorem single_attack_ti_valid (b : Battle) (us : Bool) (o : Oracle)
    (hne : alive_enemies b.enemies ≠ []) : ti_valid (single_attack b us o) := by
  have hlen0 : 0 < (alive_enemies b.enemies).length := List.length_pos.mpr hne
  have hcl0 := clamp_ti_bounds b.target_index _ hlen0
  unfold single_attack
  by_cases hwin : is_defeated (single_tgt b us o) = true
      ∧ alive_enemies (single_es b us o) = []
  · rw [if_pos hwin]
    intro halive
    exact absurd hwin.2 halive
  · rw [if_neg hwin]
    have hne2 : alive_enemies (single_es b us o) ≠ [] := by
      intro h0
      exact hwin ⟨single_tgt_dead b us o hne h0, h0⟩
    have hvalid : 0 ≤ single_ti2 b us o ∧
        single_ti2 b us o < ((alive_enemies (single_es b us o)).length : Int) := by
      have hlen2 : 0 < (alive_enemies (single_es b us o)).length :=
        List.length_pos.mpr hne2
      unfold single_ti2
      by_cases hd : is_defeated (single_tgt b us o) = true
      · rw [if_pos hd]
        exact clamp_ti_bounds _ _ hlen2
      · rw [if_neg hd]
        have heq : (alive_enemies (single_es b us o)).length
            = (alive_enemies b.enemies).length := by
          unfold single_es
          exact single_attack_alive_length b _ hne
            (by simpa [single_tgt, single_es] using hd)
        unfold single_ti
        exact ⟨hcl0.1, by rw [heq]; exact hcl0.2⟩
    by_cases hlose : is_defeated (single_p2 b us o) = true
    · rw [if_pos hlose]
      intro _
      exact hvalid
    · rw [if_neg hlose]
      intro _
      exact hvalid

theorem player_attack_ti_valid (b : Battle) (us : Bool) (o : Oracle) (hv : ti_valid b) :
    ti_valid (player_attack b us o) := by
  by_cases hrej : us = true ∧ b.player.special_uses ≤ 0
  · unfold player_attack
    rw [if_pos hrej]
    exact hv
  · by_cases hempty : alive_enemies b.enemies = []
    · rw [player_attack_eq_empty b us o hrej hempty]
      intro halive
      exact absurd hempty halive
    · by_cases hmany : us = true ∧ 1 < (alive_enemies b.enemies).length
      · rw [player_attack_eq_aoe b us o hrej hempty hmany]
        exact special_aoe_ti_valid b o
      · rw [player_attack_eq_single b us o hrej hempty hmany]
        exact single_attack_ti_valid b us o hempty

/-! ### Projections of the area-effect branch -/

theorem special_aoe_enemies (b : Battle) (o : Oracle) :
    (special_aoe b o).enemies = aoe_es b o := by
  unfold special_aoe
  split_ifs <;> rfl

theorem special_aoe_enemy_hit_popups (b : Battle) (o : Oracle) :
    enemy_hit_popups (special_aoe b o).popups
      = enemy_hit_popups b.popups ++ aoe_popups b o := by
  unfold special_aoe
  split_ifs <;>
    simp [enemy_hit_popups_append, enemy_hit_popups_aoe_popups,
      enemy_hit_popups_attacker_singleton]

theorem aoe_es_get?_target (b : Battle) (o : Oracle) (m : Nat)
    (h : m < (alive_indices b.enemies).length) :
    (aoe_es b o).get? ((alive_indices b.enemies).get ⟨m, h⟩)
      = (b.enemies.get? ((alive_indices b.enemies).get ⟨m, h⟩)).map
          (fun c => take_damage c (roll_special_damage b.player (o.rolls m))) := by
  unfold aoe_es aoe_result
  have hx := aoe_step_get?_target (pdec b) o (alive_indices b.enemies) b.enemies 0 m h
    (alive_indices_nodup b.enemies)
  simpa [pdec, roll_special_uses_irrel] using hx

theorem aoe_es_get?_other (b : Battle) (o : Oracle) (j : Nat)
    (hj : j ∉ alive_indices b.enemies) :
    (aoe_es b o).get? j = b.enemies.get? j := by
  unfold aoe_es aoe_result
  exact aoe_step_get?_not_mem _ o _ _ _ _ hj

theorem aoe_popups_eq (b : Battle) (o : Oracle) :
    aoe_popups b o = (List.range (alive_indices b.enemies).length).map
      (fun m => enemy_popup (roll_special_damage b.player (o.rolls m)) m) := by
  unfold aoe_popups aoe_result
  rw [aoe_step_popups]
  simp [pdec, roll_special_uses_irrel]

theorem aoe_total_eq (b : Battle) (o : Oracle) :
    aoe_total b o = ((List.range (alive_indices b.enemies).length).map
      (fun m => roll_special_damage b.player (o.rolls m))).sum := by
  unfold aoe_total aoe_result
  rw [aoe_step_total]
  simp [pdec, roll_special_uses_irrel]

theorem special_aoe_message (b : Battle) (o : Oracle) :
    (special_aoe b o).outcome = none →
      ∃ ed : Int, (special_aoe b o).message
        = "Special hit all enemies for " ++ toString (aoe_total b o)
          ++ " total. Enemy hit back for " ++ toString ed ++ "." := by
  unfold special_aoe
  split_ifs with hwin hlose
  · intro h
    simp at h
  · intro h
    simp at h
  · intro _
    exact ⟨aoe_ed b o, rfl⟩

/-! ### Claims -/

/-- C1: for every session whose outcome is already decided (not undecided), any
further player intent delivered through `handle_event` — basic attack, special
attack, target cycling, or target selection by click — leaves the whole battle
state unchanged; in particular outcome, message, every creature's health and
`target_index` are unchanged. -/
theorem claim_C1 (b : Battle) (e : BEvent) (o : Oracle) (h : b.outcome ≠ none) :
    handle_event b e o = b := by
  unfold handle_event
  rw [if_pos h]

theorem claim_C1_witness : handle_event exDecided .keyAttack exOracle = exDecided :=
  claim_C1 exDecided .keyAttack exOracle (by decide)

/-- C6: with `special_uses = 0`, issuing a special attack (by key or by button)
only replaces the message with the no-uses-left notice: health values,
`special_uses`, `target_index` and the undecided outcome are all unchanged. -/
theorem claim_C6 (b : Battle) (o : Oracle) (h : b.outcome = none)
    (hu : b.player.special_uses = 0) :
    handle_event b .keySpecial o = { b with message := "No special uses left!" } ∧
    handle_event b .clickSpecialBtn o = { b with message := "No special uses left!" } := by
  unfold handle_event
  simp [h, hu]

theorem claim_C6_witness :
    handle_event exNoUses .keySpecial exOracle
      = { exNoUses with message := "No special uses left!" } :=
  (claim_C6 exNoUses exOracle rfl rfl).1

/-- C7 counterexample: constructing a battle from an empty opponent sequence does
not fail fast — `Battle.__init__` accepts it, leaves the outcome undecided, and
even builds a dedicated intro message for the empty battlefield. -/
theorem claim_C7_counterexample :
    (mkBattle exPlayer []).outcome = none ∧
    (mkBattle exPlayer []).message = "An eerie silence fills the battlefield..." :=
  ⟨rfl, rfl⟩

/-- C7 (amended): constructing a combat session with an empty opponent sequence is
tolerated, not rejected: the session is created with outcome undecided and the
dedicated empty-battlefield intro message, and the first attack then immediately
sets the outcome to victory. -/
theorem claim_C7 (p : Creature) (o : Oracle) :
    (mkBattle p []).outcome = none ∧
    (mkBattle p []).message = "An eerie silence fills the battlefield..." ∧
    player_attack (mkBattle p []) false o =
      { mkBattle p [] with outcome := some .WIN, message := "Enemy defeated!" } := by
  refine ⟨rfl, rfl, ?_⟩
  unfold player_attack
  simp [mkBattle, alive_enemies]

/-- C8 counterexample: for a creature whose configured damage range is
`[-10, -10]`, the special damage derived from the roll `-10` is
`int(-10 * 1.35 + 6) = -7` (truncation toward zero), while
`floor(-10 * 135 / 100) + 6 = -8`. The magnitude `10` is far inside the range
where the exact-rational model provably coincides with the source's binary64
evaluation, so the refutation holds for the program as executed. -/
theorem claim_C8_counterexample :
    exImp.damage_min ≤ roll_damage exImp 0 ∧ roll_damage exImp 0 ≤ exImp.damage_max ∧
    roll_special_damage exImp 0 = -7 ∧
    Int.fdiv (135 * roll_damage exImp 0) 100 + 6 = -8 := by
  decide

/-- C8 (amended): for every creature and every nonnegative integer
`r ≤ 10^12` in `[damage_min, damage_max]`, the special damage derived from the
basic roll `r` is exactly `floor(r * 135 / 100) + 6`. Both restrictions are
forced by the source: Python `int()` truncates toward zero, which agrees with
the floor only for nonnegative rolls (see the counterexample at `r = -10`);
and the source computes `r * 1.35 + 6` in IEEE-754 binary64, which agrees with
the exact fraction only up to `|r| ≤ 10^12` or so (binary64 yields
`floor(r * 135 / 100) + 7` at `r = 10^15 + 8`), as detailed at
`special_from_base`. -/
theorem claim_C8 (c : Creature) (r : Int) (h1 : c.damage_min ≤ r)
    (h2 : r ≤ c.damage_max) (h0 : 0 ≤ r) (hb : r ≤ 10 ^ 12) :
    special_from_base r = Int.fdiv (135 * r) 100 + 6 := by
  unfold special_from_base
  rw [Int.tdiv_eq_ediv (by omega) (by omega), Int.fdiv_eq_ediv _ (by omega)]
  omega

theorem claim_C8_witness : special_from_base 10 = Int.fdiv (135 * 10) 100 + 6 :=
  claim_C8 exPlayer 10 (by decide) (by decide) (by decide) (by decide)

/-- C10: `configure_stats` modifies only `max_health`, `current_health`,
`damage_min` and `damage_max`; it leaves `special_uses`, `max_special_uses`,
`level` and `element` unchanged — reconfiguring stats never restores spent
special uses, while `reset_after_battle` restores them to the maximum. -/
theorem claim_C10 (c : Creature) (bh hl dmin dmax dl : Int) :
    (configure_stats c bh hl dmin dmax dl).special_uses = c.special_uses ∧
    (configure_stats c bh hl dmin dmax dl).max_special_uses = c.max_special_uses ∧
    (configure_stats c bh hl dmin dmax dl).level = c.level ∧
    (configure_stats c bh hl dmin dmax dl).element = c.element ∧
    (reset_after_battle c).special_uses = c.max_special_uses :=
  ⟨rfl, rfl, rfl, rfl, rfl⟩

/-- C9: the attacker special-use count is monotonically non-increasing across
every `handle_event` call and never becomes negative; an accepted special attack
(special intent delivered while the outcome is undecided, with uses available
and at least one opponent alive) decreases it by exactly one, and no operation
increases it. -/
theorem claim_C9 (b : Battle) (e : BEvent) (o : Oracle) :
    (handle_event b e o).player.special_uses ≤ b.player.special_uses ∧
    (0 ≤ b.player.special_uses → 0 ≤ (handle_event b e o).player.special_uses) ∧
    (b.outcome = none → 0 < b.player.special_uses → alive_enemies b.enemies ≠ [] →
      (e = .keySpecial ∨ e = .clickSpecialBtn) →
      (handle_event b e o).player.special_uses = b.player.special_uses - 1) := by
  refine ⟨?_, ?_, ?_⟩
  · rcases handle_event_uses_cases b e o with h | ⟨hp, h⟩ <;> omega
  · intro h0
    rcases handle_event_uses_cases b e o with h | ⟨hp, h⟩ <;> omega
  · rintro hout hu hne (rfl | rfl)
    · rw [handle_event_special_key b o hout hu]
      exact player_attack_uses_true b o hu hne
    · rw [handle_event_special_btn b o hout hu]
      exact player_attack_uses_true b o hu hne

theorem claim_C9_witness :
    (handle_event (mkBattle exPlayer [exEnemy 20]) .keySpecial exOracle).player.special_uses
      = (mkBattle exPlayer [exEnemy 20]).player.special_uses - 1 :=
  (claim_C9 (mkBattle exPlayer [exEnemy 20]) .keySpecial exOracle).2.2 rfl (by decide)
    (by decide) (Or.inl rfl)

/-- C2: for every attack action (basic or special, not rejected for lack of
uses) after which no opponents remain alive, the outcome is victory, the
attacker health is unchanged by the action, and no counterattack popup was
emitted. -/
theorem claim_C2 (b : Battle) (us : Bool) (o : Oracle) (hout : b.outcome = none)
    (hacc : us = true → 0 < b.player.special_uses)
    (hdead : alive_enemies (player_attack b us o).enemies = []) :
    (player_attack b us o).outcome = some .WIN ∧
    (player_attack b us o).player.current_health = b.player.current_health ∧
    counter_popups (player_attack b us o).popups = counter_popups b.popups := by
  have hrej : ¬(us = true ∧ b.player.special_uses ≤ 0) := by
    rintro ⟨h1, h2⟩
    have := hacc h1
    omega
  by_cases hempty : alive_enemies b.enemies = []
  · rw [player_attack_eq_empty b us o hrej hempty]
    exact ⟨rfl, rfl, rfl⟩
  · by_cases hmany : us = true ∧ 1 < (alive_enemies b.enemies).length
    · rw [player_attack_eq_aoe b us o hrej hempty hmany] at hdead ⊢
      simp only [special_aoe] at hdead ⊢
      by_cases hwin : alive_enemies (aoe_es b o) = []
      · rw [if_pos hwin] at hdead ⊢
        refine ⟨rfl, rfl, ?_⟩
        show counter_popups (b.popups ++ aoe_popups b o) = counter_popups b.popups
        rw [counter_popups_append, counter_popups_aoe_popups, List.append_nil]
      · rw [if_neg hwin] at hdead ⊢
        have hd2 : alive_enemies (aoe_es b o) = [] := by
          by_cases hlose : is_defeated (aoe_p2 b o) = true
          · rw [if_pos hlose] at hdead
            exact hdead
          · rw [if_neg hlose] at hdead
            exact hdead
        exact absurd hd2 hwin
    · rw [player_attack_eq_single b us o hrej hempty hmany] at hdead ⊢
      simp only [single_attack] at hdead ⊢
      by_cases hwin : is_defeated (single_tgt b us o) = true
          ∧ alive_enemies (single_es b us o) = []
      · rw [if_pos hwin] at hdead ⊢
        refine ⟨rfl, single_p_health b us, ?_⟩
        show counter_popups (b.popups
            ++ [enemy_popup (single_dmg b us o) (single_ti b).toNat])
          = counter_popups b.popups
        rw [counter_popups_append, counter_popups_enemy_singleton, List.append_nil]
      · rw [if_neg hwin] at hdead ⊢
        have hd2 : alive_enemies (single_es b us o) = [] := by
          by_cases hlose : is_defeated (single_p2 b us o) = true
          · rw [if_pos hlose] at hdead
            exact hdead
          · rw [if_neg hlose] at hdead
            exact hdead
        exact absurd ⟨single_tgt_dead b us o hempty hd2, hd2⟩ hwin

theorem claim_C2_witness :
    (player_attack (mkBattle exPlayer [exEnemy 10]) false exOracle).outcome
      = some .WIN :=
  (claim_C2 (mkBattle exPlayer [exEnemy 10]) false exOracle rfl
    (fun h => nomatch h) (by decide)).1

/-- C4: `target_index` is a valid index into the alive view — in
`[0, aliveCount - 1]` whenever some opponent is alive — at construction and
immediately after every mutating session operation (attack, special attack,
target cycling, target selection by click), being re-clamped within the same
operation after any opponent death. -/
theorem claim_C4 :
    (∀ (p : Creature) (es : List Creature), ti_valid (mkBattle p es)) ∧
    (∀ (b : Battle) (e : BEvent) (o : Oracle), ti_valid b →
      ti_valid (handle_event b e o)) := by
  refine ⟨mk_ti_valid, ?_⟩
  intro b e o hv
  by_cases hout : b.outcome = none
  case neg =>
    rw [handle_event_frozen b e o hout]
    exact hv
  case pos =>
    cases e with
    | keyPrev =>
      rw [show handle_event b .keyPrev o = cycle_target b (-1) from by
        unfold handle_event; rw [if_neg (by simp [hout])]]
      exact cycle_target_ti_valid b _ hv
    | keyNext =>
      rw [show handle_event b .keyNext o = cycle_target b 1 from by
        unfold handle_event; rw [if_neg (by simp [hout])]]
      exact cycle_target_ti_valid b _ hv
    | keyAttack =>
      rw [handle_event_basic_key b o hout]
      exact player_attack_ti_valid b false o hv
    | keySpecial =>
      by_cases hu : 0 < b.player.special_uses
      · rw [handle_event_special_key b o hout hu]
        exact player_attack_ti_valid b true o hv
      · rw [show handle_event b .keySpecial o
            = { b with message := "No special uses left!" } from by
          unfold handle_event; rw [if_neg (by simp [hout])]; simp [hu]]
        exact hv
    | clickEnemy idx =>
      by_cases hidx : idx < (alive_enemies b.enemies).length
      · rw [show handle_event b (.clickEnemy idx) o
            = { b with target_index := (idx : Int) } from by
          unfold handle_event; rw [if_neg (by simp [hout])]; simp [hidx]]
        intro _
        constructor
        · show (0 : Int) ≤ (idx : Int)
          exact_mod_cast Nat.zero_le idx
        · show ((idx : Int)) < ((alive_enemies b.enemies).length : Int)
          exact_mod_cast hidx
      · rw [show handle_event b (.clickEnemy idx) o = b from by
          unfold handle_event; rw [if_neg (by simp [hout])]; simp [hidx]]
        exact hv
    | clickAttackBtn =>
      rw [handle_event_basic_btn b o hout]
      exact player_attack_ti_valid b false o hv
    | clickSpecialBtn =>
      by_cases hu : 0 < b.player.special_uses
      · rw [handle_event_special_btn b o hout hu]
        exact player_attack_ti_valid b true o hv
      · rw [show handle_event b .clickSpecialBtn o
            = { b with message := "No special uses left!" } from by
          unfold handle_event; rw [if_neg (by simp [hout])]; simp [hu]]
        exact hv
    | other =>
      rw [show handle_event b .other o = b from by
        unfold handle_event; rw [if_neg (by simp [hout])]]
      exact hv

theorem claim_C4_witness :
    ti_valid (handle_event (mkBattle exPlayer [exEnemy 20, exEnemy 20]) .keyNext exOracle) :=
  claim_C4.2 (mkBattle exPlayer [exEnemy 20, exEnemy 20]) .keyNext exOracle (by decide)

/-- C5: after every attack action (basic or special, not rejected for lack of
uses) that leaves at least one opponent alive, exactly one counterattack is
resolved: one currently-alive opponent is selected, its damage roll is applied
to the attacker, exactly one attacker-side popup is emitted, and the outcome
becomes defeat exactly when the attacker health is then at most zero (otherwise
it stays undecided). -/
theorem claim_C5 (b : Battle) (us : Bool) (o : Oracle) (hout : b.outcome = none)
    (hacc : us = true → 0 < b.player.special_uses)
    (halive : alive_enemies (player_attack b us o).enemies ≠ []) :
    ∃ c v, c ∈ alive_enemies (player_attack b us o).enemies ∧
      (player_attack b us o).player.current_health
        = b.player.current_health - roll_damage c v ∧
      counter_popups ((player_attack b us o).popups)
        = counter_popups b.popups ++ [attacker_popup (roll_damage c v)] ∧
      (player_attack b us o).outcome
        = (if (player_attack b us o).player.current_health ≤ 0 then some .LOSE
           else none) := by
  have hrej : ¬(us = true ∧ b.player.special_uses ≤ 0) := by
    rintro ⟨h1, h2⟩
    have := hacc h1
    omega
  by_cases hempty : alive_enemies b.enemies = []
  · rw [player_attack_eq_empty b us o hrej hempty] at halive
    exact absurd hempty halive
  · by_cases hmany : us = true ∧ 1 < (alive_enemies b.enemies).length
    · rw [player_attack_eq_aoe b us o hrej hempty hmany] at halive ⊢
      simp only [special_aoe] at halive ⊢
      by_cases hwin : alive_enemies (aoe_es b o) = []
      · simp only [if_pos hwin] at halive
        exact absurd hwin halive
      · simp only [if_neg hwin] at halive ⊢
        refine ⟨pick (alive_enemies (aoe_es b o)) o.choice,
          o.rolls (alive_indices b.enemies).length, ?_, ?_, ?_, ?_⟩
        · by_cases hlose : is_defeated (aoe_p2 b o) = true
          · simp only [if_pos hlose]
            exact pick_mem _ _ hwin
          · simp only [if_neg hlose]
            exact pick_mem _ _ hwin
        · by_cases hlose : is_defeated (aoe_p2 b o) = true
          · simp only [if_pos hlose]
            rfl
          · simp only [if_neg hlose]
            rfl
        · by_cases hlose : is_defeated (aoe_p2 b o) = true
          · simp only [if_pos hlose]
            simp [counter_popups_append, counter_popups_aoe_popups,
              counter_popups_attacker_singleton, aoe_ed]
          · simp only [if_neg hlose]
            simp [counter_popups_append, counter_popups_aoe_popups,
              counter_popups_attacker_singleton, aoe_ed]
        · by_cases hlose : is_defeated (aoe_p2 b o) = true
          · simp only [if_pos hlose]
            simp only [is_defeated, decide_eq_true_eq] at hlose
            simp [hlose]
          · simp only [if_neg hlose]
            simp only [is_defeated, decide_eq_true_eq] at hlose
            simp [hlose, hout]
    · rw [player_attack_eq_single b us o hrej hempty hmany] at halive ⊢
      simp only [single_attack] at halive ⊢
      by_cases hwin : is_defeated (single_tgt b us o) = true
          ∧ alive_enemies (single_es b us o) = []
      · simp only [if_pos hwin] at halive
        exact absurd hwin.2 halive
      · simp only [if_neg hwin] at halive ⊢
        have hne2 : alive_enemies (single_es b us o) ≠ [] := by
          intro h0
          exact hwin ⟨single_tgt_dead b us o hempty h0, h0⟩
        refine ⟨pick (alive_enemies (single_es b us o)) o.choice, o.rolls 1,
          ?_, ?_, ?_, ?_⟩
        · by_cases hlose : is_defeated (single_p2 b us o) = true
          · simp only [if_pos hlose]
            exact pick_mem _ _ hne2
          · simp only [if_neg hlose]
            exact pick_mem _ _ hne2
        · by_cases hlose : is_defeated (single_p2 b us o) = true
          · simp only [if_pos hlose]
            show (single_p2 b us o).current_health = _
            unfold single_p2 take_damage
            simp [single_p_health, single_ed]
          · simp only [if_neg hlose]
            show (single_p2 b us o).current_health = _
            unfold single_p2 take_damage
            simp [single_p_health, single_ed]
        · by_cases hlose : is_defeated (single_p2 b us o) = true
          · simp only [if_pos hlose]
            simp [counter_popups_append, counter_popups_enemy_singleton,
              counter_popups_attacker_singleton, single_ed, counter_popups,
              List.filter_cons, is_counter_enemy_popup, is_counter_attacker_popup]
          · simp only [if_neg hlose]
            simp [counter_popups_append, counter_popups_enemy_singleton,
              counter_popups_attacker_singleton, single_ed, counter_popups,
              List.filter_cons, is_counter_enemy_popup, is_counter_attacker_popup]
        · by_cases hlose : is_defeated (single_p2 b us o) = true
          · simp only [if_pos hlose]
            simp only [is_defeated, decide_eq_true_eq] at hlose
            simp [hlose]
          · simp only [if_neg hlose]
            simp only [is_defeated, decide_eq_true_eq] at hlose
            simp [hlose, hout]

theorem claim_C5_witness :
    ∃ c v, c ∈ alive_enemies
        (player_attack (mkBattle exPlayer [exEnemy 20]) false exOracle).enemies ∧
      (player_attack (mkBattle exPlayer [exEnemy 20]) false exOracle).player.current_health
        = (mkBattle exPlayer [exEnemy 20]).player.current_health - roll_damage c v ∧
      counter_popups ((player_attack (mkBattle exPlayer [exEnemy 20]) false exOracle).popups)
        = counter_popups (mkBattle exPlayer [exEnemy 20]).popups
            ++ [attacker_popup (roll_damage c v)] ∧
      (player_attack (mkBattle exPlayer [exEnemy 20]) false exOracle).outcome
        = (if (player_attack (mkBattle exPlayer [exEnemy 20]) false exOracle).player.current_health ≤ 0
           then some .LOSE else none) :=
  claim_C5 (mkBattle exPlayer [exEnemy 20]) false exOracle rfl
    (fun h => nomatch h) (by decide)

/-- C3: a special attack issued while the outcome is undecided, with uses
available and more than one opponent alive, consumes exactly one special use;
the targets are exactly the alive opponents snapshotted before any damage from
this action (everything at a non-snapshotted position is untouched); each
snapshotted target receives an independently rolled special damage; exactly one
popup is emitted per snapshotted target; and when the exchange message is
produced (battle still undecided) its reported total is the sum of those
damages. -/
theorem claim_C3 (b : Battle) (o : Oracle) (hout : b.outcome = none)
    (hu : 0 < b.player.special_uses)
    (hmany : 1 < (alive_enemies b.enemies).length) :
    (handle_event b .keySpecial o).player.special_uses = b.player.special_uses - 1 ∧
    (∀ (m : Nat) (h : m < (alive_indices b.enemies).length),
      (handle_event b .keySpecial o).enemies.get? ((alive_indices b.enemies).get ⟨m, h⟩)
        = (b.enemies.get? ((alive_indices b.enemies).get ⟨m, h⟩)).map
            (fun c => take_damage c (roll_special_damage b.player (o.rolls m)))) ∧
    (∀ j : Nat, j ∉ alive_indices b.enemies →
      (handle_event b .keySpecial o).enemies.get? j = b.enemies.get? j) ∧
    enemy_hit_popups (handle_event b .keySpecial o).popups
      = enemy_hit_popups b.popups
        ++ (List.range (alive_indices b.enemies).length).map
            (fun m => enemy_popup (roll_special_damage b.player (o.rolls m)) m) ∧
    ((handle_event b .keySpecial o).outcome = none →
      ∃ ed : Int, (handle_event b .keySpecial o).message
        = "Special hit all enemies for "
          ++ toString (((List.range (alive_indices b.enemies).length).map
              (fun m => roll_special_damage b.player (o.rolls m))).sum)
          ++ " total. Enemy hit back for " ++ toString ed ++ ".") := by
  have hne : alive_enemies b.enemies ≠ [] := by
    intro h
    rw [h] at hmany
    simp at hmany
  have hstep : handle_event b .keySpecial o = special_aoe b o := by
    rw [handle_event_special_key b o hout hu]
    exact player_attack_eq_aoe b true o (by simp; omega) hne ⟨rfl, hmany⟩
  rw [hstep]
  refine ⟨special_aoe_uses b o, ?_, ?_, ?_, ?_⟩
  · intro m h
    rw [special_aoe_enemies]
    exact aoe_es_get?_target b o m h
  · intro j hj
    rw [special_aoe_enemies]
    exact aoe_es_get?_other b o j hj
  · rw [special_aoe_enemy_hit_popups, aoe_popups_eq]
  · intro hnone
    obtain ⟨ed, hmsg⟩ := special_aoe_message b o hnone
    exact ⟨ed, by rw [hmsg, aoe_total_eq]⟩

theorem claim_C3_witness :
    (handle_event (mkBattle exPlayer [exEnemy 5, exEnemy 5, exEnemy 5]) .keySpecial
        exOracle).player.special_uses
      = (mkBattle exPlayer [exEnemy 5, exEnemy 5, exEnemy 5]).player.special_uses - 1 :=
  (claim_C3 (mkBattle exPlayer [exEnemy 5, exEnemy 5, exEnemy 5]) exOracle rfl
    (by decide) (by decide)).1

end SAFE
